import Mathlib

/-!
Verification of the local relay / poll-to-stream server of this repository.

Two server variants exist in the sources: the poll-to-stream synthesizer
(the file with `parseTextToNumbers` and the polling `/sse` handler) and the
byte-stream relay variant (the file with `isHostAllowed`, `/proxy`, and the
chunk-forwarding `/sse`).  Pure computations are embedded directly; stateful
request handling is embedded as explicit outcome values and step functions.
Platform primitives (the WHATWG URL parser, `parseInt`, `JSON.stringify`,
UTF-8 encoding, base64) are modelled as executable Lean functions, each
documented at its definition.
-/

namespace Relay

/-! ## Sample Extractor (function `parseTextToNumbers`)

The source scans the text with the JS regex
`[-+]?\d*\.?\d+(?:[eE][-+]?\d+)?` (global flag) and applies `parseFloat` to
every match.  The scanner below reproduces the leftmost, greedy,
backtracking behaviour of that regex: an optional sign (only together with
a following mantissa), a mantissa that is either `digits`, `digits.digits`
or `.digits` (a trailing dot is not consumed), and an optional exponent
group that is dropped whole when no digit follows the `e`/`E`.  Numeric
values are represented exactly as rationals; IEEE-754 rounding performed by
`parseFloat` is abstracted away (all values appearing in the properties
below are exactly representable). -/

/-- Maximal run of decimal digits at the head of the list, with the rest. -/
def takeDigits : List Char → List Char × List Char
  | [] => ([], [])
  | c :: rest =>
    if c.isDigit then
      let p := takeDigits rest
      (c :: p.1, p.2)
    else ([], c :: rest)

/-- Value of a digit run, most significant digit first. -/
def digitsVal (l : List Char) : ℕ :=
  l.foldl (fun acc c => acc * 10 + (c.toNat - 48)) 0

/-- Integer-part value of a digit run as a rational. -/
def intVal (l : List Char) : ℚ := (digitsVal l : ℚ)

/-- Fraction-part value of a digit run as a rational. -/
def fracVal (l : List Char) : ℚ := (digitsVal l : ℚ) / (10 : ℚ) ^ l.length

/-- Mantissa match of the regex at the head of the list: returns the value,
the number of characters consumed, and the rest.  Mirrors the backtracking
of the sub-pattern `\d*\.?\d+`: a dot with no following digit is given back. -/
def matchMantissa (l : List Char) : Option (ℚ × ℕ × List Char) :=
  let p := takeDigits l
  match p.2 with
  | '.' :: r2 =>
    let q := takeDigits r2
    if q.1.isEmpty then
      if p.1.isEmpty then none else some (intVal p.1, p.1.length, p.2)
    else
      if p.1.isEmpty then some (fracVal q.1, q.1.length + 1, q.2)
      else some (intVal p.1 + fracVal q.1, p.1.length + 1 + q.1.length, q.2)
  | _ => if p.1.isEmpty then none else some (intVal p.1, p.1.length, p.2)

/-- Exponent digits after an already-consumed `e`/`E` (and sign): on success
the signed exponent, characters consumed including the `pre` characters of
prefix, and the rest; on failure the whole group is given back (`orig`). -/
def expDigits (r : List Char) (neg : Bool) (orig : List Char) (pre : ℕ) :
    ℤ × ℕ × List Char :=
  let p := takeDigits r
  if p.1.isEmpty then (0, 0, orig)
  else (if neg then -(digitsVal p.1 : ℤ) else (digitsVal p.1 : ℤ), p.1.length + pre, p.2)

/-- Optional exponent group `(?:[eE][-+]?\d+)?` at the head of the list. -/
def matchExp (l : List Char) : ℤ × ℕ × List Char :=
  match l with
  | [] => (0, 0, [])
  | c :: rest =>
    if c = 'e' ∨ c = 'E' then
      match rest with
      | [] => (0, 0, l)
      | d :: r2 =>
        if d = '-' then expDigits r2 true l 2
        else if d = '+' then expDigits r2 false l 2
        else expDigits rest false l 1
    else (0, 0, l)

/-- Mantissa followed by the optional exponent group. -/
def matchAfterSign (l : List Char) : Option (ℚ × ℕ × List Char) :=
  (matchMantissa l).map (fun t =>
    let e := matchExp t.2.2
    (t.1 * (10 : ℚ) ^ e.1, t.2.1 + e.2.1, e.2.2))

/-- Full numeric-literal match of the regex at the head of the list,
including the optional sign.  A sign with no following mantissa does not
match (the regex cannot restart inside the sign character). -/
def matchNumAt (l : List Char) : Option (ℚ × ℕ × List Char) :=
  match l with
  | [] => matchAfterSign []
  | c :: rest =>
    if c = '-' then (matchAfterSign rest).map (fun t => (-t.1, t.2.1 + 1, t.2.2))
    else if c = '+' then (matchAfterSign rest).map (fun t => (t.1, t.2.1 + 1, t.2.2))
    else matchAfterSign (c :: rest)

/-- Scan of the whole text: repeated leftmost regex match, as `re.exec` in a
loop does.  `i` is the index of the head of `l` in the original text; every
reported sample is paired with the index of its first character.  The fuel
argument bounds the recursion; one character is consumed per step at least,
so `l.length` fuel is always enough. -/
def scanAux : ℕ → ℕ → List Char → List (ℕ × ℚ)
  | 0, _, _ => []
  | _ + 1, _, [] => []
  | fuel + 1, i, c :: rest =>
    match matchNumAt (c :: rest) with
    | some (v, n, r) => (i, v) :: scanAux fuel (i + n) r
    | none => scanAux fuel (i + 1) rest

/-- Embedding of `parseTextToNumbers`: the numeric samples of the text, in
scan order. -/
def parseTextToNumbers (s : String) : List ℚ :=
  (scanAux s.data.length 0 s.data).map Prod.snd

/-! ## URLs and the Host Policy

Both server variants parse target URLs with the platform `URL` class
(`new URL(remote)` throws on an invalid URL).  The handlers only consult
whether the string parses and, if so, its hostname, so the parser is kept
abstract: the handler embeddings take any `parse` function.  A small
concrete model is provided for witnesses and counterexamples. -/

/-- Result of a successful URL parse, reduced to the field the code reads. -/
structure URLRec where
  hostname : String
deriving DecidableEq

/-- Shape of a URL parser: `none` models the constructor throwing. -/
def ParseURL : Type := String → Option URLRec

/-- Scheme prefix recognizer for the concrete URL model. -/
def schemeRest (l : List Char) : Option (List Char) :=
  match l with
  | 'h' :: 't' :: 't' :: 'p' :: ':' :: '/' :: '/' :: rest => some rest
  | 'h' :: 't' :: 't' :: 'p' :: 's' :: ':' :: '/' :: '/' :: rest => some rest
  | _ => none

/-- Modelled from the spec: the platform WHATWG `URL` parser, reduced to the
fragment exercised here — absolute `http`/`https` URLs with a nonempty
hostname parse, anything without such a scheme does not. -/
def parseURLModel (s : String) : Option URLRec :=
  match schemeRest s.data with
  | none => none
  | some rest =>
    let host := rest.takeWhile (fun c => !(c = '/' ∨ c = ':' ∨ c = '?' ∨ c = '#'))
    if host.isEmpty then none else some ⟨String.mk host⟩

/-- Embedding of `isHostAllowed` from the relay server variant: allow all
when the configured list is empty, otherwise parse the URL and test list
membership of the hostname; a parse failure is denied. -/
def isHostAllowed (parse : ParseURL) (allowedHosts : List String)
    (targetUrl : String) : Bool :=
  if allowedHosts.isEmpty then true
  else
    match parse targetUrl with
    | some u => allowedHosts.contains u.hostname
    | none => false

/-! ## Request handling up to the first upstream fetch

The three GET handlers are embedded as pure functions from the request's
`url` query parameter (and configuration) to the response decision they
reach before/at the first upstream fetch, paired with the number of
`fetch` invocations made while reaching it.  An absent parameter is
`none`; the empty string is falsy in JS, so `if (!target)` also rejects
it. -/

/-- Response decision a handler reaches in its validation phase. -/
inductive PreOutcome
  /-- 400, url parameter missing (or empty, which is falsy). -/
  | badRequestMissing
  /-- 400, `new URL` threw in the poll handler's validation. -/
  | badRequestInvalid
  /-- 403, host not allowed. -/
  | forbidden
  /-- 502, the relay handler's fetch threw. -/
  | badGateway
  /-- Poll handler: 200 and event-stream headers written, loop started. -/
  | streaming
  /-- Relay handler: fetch returned, upstream response being forwarded. -/
  | proceed
deriving DecidableEq

/-- Embedding of the poll-mode `GET /sse` handler of the synthesizer server
up to the start of its loop: missing/empty url is 400, an unparsable url is
400, otherwise the 200 event-stream headers are written before any fetch
(count 0).  There is no host-allowlist consultation in this variant. -/
def pollSsePrefetch (parse : ParseURL) (urlQ : Option String) :
    PreOutcome × ℕ :=
  match urlQ with
  | none => (.badRequestMissing, 0)
  | some remote =>
    if remote = "" then (.badRequestMissing, 0)
    else
      match parse remote with
      | none => (.badRequestInvalid, 0)
      | some _ => (.streaming, 0)

/-- Embedding of `GET /proxy` from the relay server variant up to its fetch:
missing/empty url is 400, a host-policy denial is 403 before any fetch,
otherwise `fetch(target)` is invoked (count 1) — throwing (for instance on
an unparsable URL) lands in the catch as 502. -/
def proxyPrefetch (parse : ParseURL) (allowedHosts : List String)
    (urlQ : Option String) : PreOutcome × ℕ :=
  match urlQ with
  | none => (.badRequestMissing, 0)
  | some target =>
    if target = "" then (.badRequestMissing, 0)
    else if !(isHostAllowed parse allowedHosts target) then (.forbidden, 0)
    else
      match parse target with
      | none => (.badGateway, 1)
      | some _ => (.proceed, 1)

/-- Embedding of the chunk-forwarding `GET /sse` of the relay server variant
up to its fetch; its validation phase is identical to `/proxy`. -/
def relaySsePrefetch (parse : ParseURL) (allowedHosts : List String)
    (urlQ : Option String) : PreOutcome × ℕ :=
  match urlQ with
  | none => (.badRequestMissing, 0)
  | some target =>
    if target = "" then (.badRequestMissing, 0)
    else if !(isHostAllowed parse allowedHosts target) then (.forbidden, 0)
    else
      match parse target with
      | none => (.badGateway, 1)
      | some _ => (.proceed, 1)

/-! ## Header forwarding of the Relay Endpoint -/

/-- The hop-by-hop header set of `GET /proxy`, verbatim from the source. -/
def hopByHop : List String :=
  ["connection", "keep-alive", "proxy-authenticate", "proxy-authorization",
   "te", "trailers", "transfer-encoding", "upgrade"]

/-- Embedding of the header-forwarding loop of `GET /proxy`: every upstream
header is copied unless its lowercased name is in `hopByHop`. -/
def forwardHeaders (hs : List (String × String)) : List (String × String) :=
  hs.filter (fun kv => !(hopByHop.contains kv.1.toLower))

/-! ## JSON values and stringification

A poll iteration that sees a JSON content type lets the platform parse the
body (`r.json()`) and branches on the shape of the decoded value.  The
decoded value is modelled by the inductive below.  `JSON.stringify` is
modelled structurally; JSON numbers are modelled as integers and string
escaping covers quotes and backslashes, which is all the properties below
exercise. -/

/-- Decoded JSON value, as delivered by the platform parser. -/
inductive Json
  | null
  | bool (b : Bool)
  | num (n : ℤ)
  | str (s : String)
  | arr (xs : List Json)
  | obj (fields : List (String × Json))

/-- Escape of one character inside a JSON string literal. -/
def escChar (c : Char) : List Char :=
  if c = '"' ∨ c = '\\' then ['\\', c] else [c]

/-- Escape of a string for inclusion in a JSON string literal. -/
def jsonEscape (s : String) : String :=
  String.mk ((s.data.map escChar).flatten)

mutual

/-- Modelled from the spec: `JSON.stringify` on a decoded value (the code
re-encodes non-array JSON for numeric extraction and encodes arrays for
data frames). -/
def Json.stringify : Json → String
  | .null => "null"
  | .bool true => "true"
  | .bool false => "false"
  | .num n => toString n
  | .str s => "\"" ++ jsonEscape s ++ "\""
  | .arr xs => "[" ++ stringifyItems xs ++ "]"
  | .obj fs => "\x7b" ++ stringifyFields fs ++ "\x7d"

/-- Comma-separated stringification of array items. -/
def stringifyItems : List Json → String
  | [] => ""
  | [x] => Json.stringify x
  | x :: y :: rest => Json.stringify x ++ "," ++ stringifyItems (y :: rest)

/-- Comma-separated stringification of object fields. -/
def stringifyFields : List (String × Json) → String
  | [] => ""
  | [kv] => "\"" ++ jsonEscape kv.1 ++ "\":" ++ Json.stringify kv.2
  | kv :: y :: rest =>
    "\"" ++ jsonEscape kv.1 ++ "\":" ++ Json.stringify kv.2 ++ "," ++
      stringifyFields (y :: rest)

end

/-- Test for `Array.isArray` on a decoded value. -/
def Json.isArray : Json → Bool
  | .arr _ => true
  | _ => false

/-- Property access `j.samples`: defined on objects, `undefined` (`none`)
on every other shape. -/
def Json.getField : Json → String → Option Json
  | .obj fs, k => (fs.find? (fun kv => kv.1 == k)).map Prod.snd
  | _, _ => none

/-- JS truthiness of a decoded JSON value (`undefined` is handled at the
use site via `Option`). -/
def jsTruthy : Json → Bool
  | .null => false
  | .bool b => b
  | .num n => !(n = 0)
  | .str s => !(s = "")
  | .arr _ => true
  | .obj _ => true

/-- The `j.samples && Array.isArray(j.samples)` test of the poll loop:
the samples field, when present, truthy, and an array. -/
def samplesArray (j : Json) : Option Json :=
  match j.getField "samples" with
  | some v => if jsTruthy v && v.isArray then some v else none
  | none => none

/-- Modelled from the spec: JS number-to-string as used by
`JSON.stringify` on an extracted sample; exact for integer-valued samples,
which is the only case the properties below evaluate. -/
def numToJsonStr (q : ℚ) : String :=
  if q.den = 1 then toString q.num
  else toString q.num ++ "/" ++ toString q.den

/-- Stringification of an extracted numeric sequence, as
`JSON.stringify(nums)` renders a number array. -/
def stringifyNums (l : List ℚ) : String :=
  "[" ++ String.intercalate "," (l.map numToJsonStr) ++ "]"

/-- Head-anchored occurrence test used by `isPieceOf`. -/
def matchesFront : List Char → List Char → Bool
  | [], _ => true
  | _ :: _, [] => false
  | a :: as, b :: bs => a == b && matchesFront as bs

/-- The `includes` test on the content-type string: `sub` occurs
contiguously in `s`. -/
def isPieceOf : List Char → List Char → Bool
  | sub, [] => sub.isEmpty
  | sub, c :: rest => matchesFront sub (c :: rest) || isPieceOf sub rest

/-- Embedding of `ct.includes(sub)` from the content-type branch. -/
def jsIncludes (s sub : String) : Bool := isPieceOf sub.data s.data

/-! ## Event frames written by the poll loop

The poll handler writes its frames with template literals that read, in the
source bytes, as backslash-backslash-n twice — an escaped backslash
followed by the letter `n`.  A JS template literal renders that as the
four literal characters backslash, `n`, backslash, `n`, so the terminator
actually written on the wire is the Lean string below (which contains no
newline character at all). -/

/-- The four characters the poll handler appends to every frame. -/
def frameTail : String := "\\n\\n"

/-- Frame for a non-OK upstream status. -/
def commentStatusFrame (status : ℕ) : String :=
  ": remote status " ++ toString status ++ frameTail

/-- Frame for a failed poll iteration (thrown fetch or body read). -/
def pollErrorFrame (msg : String) : String :=
  ": poll error " ++ msg ++ frameTail

/-- Data frame around a serialized payload. -/
def dataFrame (payload : String) : String :=
  "data: " ++ payload ++ frameTail

/-- Data frame carrying a base64 blob for a non-numeric text body. -/
def b64DataFrame (b64 : String) : String :=
  "data: \x7b\"b64\": \"" ++ b64 ++ "\"\x7d" ++ frameTail

/-- Spec-side predicate, following the claim's words: the written bytes end
with a blank line, i.e. two consecutive newline characters. -/
def endsWithBlankLine (s : String) : Bool :=
  s.data.reverse.take 2 == ['\n', '\n']

/-! ## UTF-8 bytes and base64

`Buffer.from(txt).toString('base64')` encodes the body text as UTF-8 and
then as base64.  Both platform primitives are modelled executably. -/

/-- Modelled from the spec: UTF-8 encoding of one code point. -/
def utf8Bytes (c : ℕ) : List ℕ :=
  if c < 128 then [c]
  else if c < 2048 then [192 + c / 64, 128 + c % 64]
  else if c < 65536 then [224 + c / 4096, 128 + c / 64 % 64, 128 + c % 64]
  else [240 + c / 262144, 128 + c / 4096 % 64, 128 + c / 64 % 64, 128 + c % 64]

/-- Modelled from the spec: the UTF-8 byte sequence of a string, as
`Buffer.from` produces it. -/
def strBytes (s : String) : List ℕ :=
  (s.data.map (fun c => utf8Bytes c.toNat)).flatten

/-- The base64 alphabet in index order. -/
def b64Table : List Char :=
  "ABCDEFGHIJKLMNOPQRSTUVWXYZabcdefghijklmnopqrstuvwxyz0123456789+/".data

/-- Character for a 6-bit group. -/
def b64Char (n : ℕ) : Char := b64Table.getD n 'A'

/-- Index of a base64 character, `none` for characters outside the
alphabet (in particular the padding `=`). -/
def b64Val (c : Char) : Option ℕ :=
  if c ∈ b64Table then some (b64Table.indexOf c) else none

/-- Modelled from the spec: standard base64 of a byte sequence, with `=`
padding, as `Buffer.prototype.toString('base64')` produces it. -/
def b64EncodeBytes : List ℕ → List Char
  | [] => []
  | [a] => [b64Char (a / 4), b64Char (a % 4 * 16), '=', '=']
  | [a, b] =>
    [b64Char (a / 4), b64Char (a % 4 * 16 + b / 16), b64Char (b % 16 * 4), '=']
  | a :: b :: c :: rest =>
    b64Char (a / 4) :: b64Char (a % 4 * 16 + b / 16) ::
      b64Char (b % 16 * 4 + c / 64) :: b64Char (c % 64) :: b64EncodeBytes rest

/-- Standard base64 decoding, the spec side of the round-trip property:
groups of four characters yield three bytes, with `=` padding closing the
final group. -/
def b64DecodeChars : List Char → Option (List ℕ)
  | [] => some []
  | w :: x :: y :: z :: rest =>
    (match b64Val w, b64Val x with
     | some vw, some vx =>
       if y = '=' ∧ z = '=' ∧ rest = [] then some [vw * 4 + vx / 16]
       else
         (match b64Val y with
          | some vy =>
            if z = '=' ∧ rest = [] then
              some [vw * 4 + vx / 16, vx % 16 * 16 + vy / 4]
            else
              (match b64Val z, b64DecodeChars rest with
               | some vz, some tail =>
                 some ((vw * 4 + vx / 16) :: (vx % 16 * 16 + vy / 4) ::
                   (vy % 4 * 64 + vz) :: tail)
               | _, _ => none)
          | none => none)
     | _, _ => none)
  | _ => none

/-! ## One poll iteration

The body of the poll loop, from the `fetch` call to the single `res.write`
it performs: a thrown fetch or body/JSON read is caught and reported as a
comment frame, a non-OK status becomes a comment frame, and an OK response
is dispatched on content type and JSON shape exactly as in the source. -/

/-- Upstream response as the poll iteration observes it.  `jsonResult` is
what `r.json()` would deliver (`Except.error` models the parse throwing),
`textResult` what `r.text()` would deliver; only the one matching the
content-type branch is consulted. -/
structure RespModel where
  ok : Bool
  status : ℕ
  ct : String
  jsonResult : Except String Json
  textResult : String

/-- Result of one `fetch` call: thrown (network/DNS/timeout), or a
response handle. -/
inductive FetchRes
  | fetchErr (msg : String)
  | resp (r : RespModel)

/-- Embedding of one poll-loop iteration's write. -/
def iterFrame : FetchRes → String
  | .fetchErr msg => pollErrorFrame msg
  | .resp r =>
    if !r.ok then commentStatusFrame r.status
    else if jsIncludes r.ct "application/json" then
      match r.jsonResult with
      | .error msg => pollErrorFrame msg
      | .ok j =>
        if j.isArray then dataFrame j.stringify
        else
          match samplesArray j with
          | some arr => dataFrame arr.stringify
          | none => dataFrame (stringifyNums (parseTextToNumbers j.stringify))
    else
      let nums := parseTextToNumbers r.textResult
      if nums.isEmpty then
        b64DataFrame (String.mk (b64EncodeBytes (strBytes r.textResult)))
      else dataFrame (stringifyNums nums)

/-- Embedding of the poll loop's iteration structure: at each step the loop
first observes the stop flag (set by client disconnect) and exits, else
performs the iteration's fetch and write and continues.  `i` is the
iteration index, `fuel` an observation horizon (the JS loop is unbounded). -/
def pollWritesAux (fetchAt : ℕ → FetchRes) (stopped : ℕ → Bool) :
    ℕ → ℕ → List String
  | _, 0 => []
  | i, fuel + 1 =>
    if stopped i then []
    else iterFrame (fetchAt i) :: pollWritesAux fetchAt stopped (i + 1) fuel

/-! ## The Stream Pump of the relay endpoints

Both `/proxy` and the relay `/sse` drain the upstream body with the same
loop: read a chunk; stop on end-of-data; before each write check
`res.writableEnded` and stop instead of writing when the sink has ended; a
thrown read is caught (logged) and stops the loop; the `finally` block
calls `res.end()` exactly once on every exit path, wrapped in its own
try/catch so a failing close never propagates.  The run is embedded over a
trace pairing each read result with the `writableEnded` value the loop
observes just before the corresponding write — the asynchronous
environment may flip that flag at any step.  Client disconnect is a
`close` event on the request; the runtime delivers it at most once per
connection, and its registered handler performs one `reader.cancel()`
(again inside try/catch). -/

/-- One resolution of `reader.read()`. -/
inductive ReadRes
  | chunk (b : String)
  | done
  | readErr (msg : String)

/-- Run of the pump over a read/flag trace: the chunks actually written and
the number of `res.end()` calls performed. -/
def pumpRun : List (ReadRes × Bool) → List String × ℕ
  | [] => ([], 1)
  | x :: rest =>
    match x.1 with
    | .done => ([], 1)
    | .readErr _ => ([], 1)
    | .chunk b => if x.2 then ([], 1) else (b :: (pumpRun rest).1, (pumpRun rest).2)

/-- Step predicate: a read that resolved to a chunk while the sink had not
ended — exactly the steps at which the pump writes. -/
def pumpWritableStep (x : ReadRes × Bool) : Bool :=
  match x.1 with
  | .chunk _ => !x.2
  | _ => false

/-- Chunk payload of a step, when the read resolved to a chunk. -/
def chunkData (x : ReadRes × Bool) : Option String :=
  match x.1 with
  | .chunk b => some b
  | _ => none

/-- Cancellations of the upstream reader: the close handler registered by
the endpoint invokes `reader.cancel()` once per delivered `close` event. -/
def readerCancelCalls (closeEvents : ℕ) : ℕ := closeEvents

/-! ## Interval parsing and the poll sleep

The poll handler computes `parseInt(req.query.interval) || 200`: an absent
parameter, a string with no leading integer (`NaN`), and a parsed `0` are
all falsy and fall back to 200.  Between iterations it sleeps in 50 ms
slices while `!stopped && Date.now() - start < interval`. -/

/-- Modelled from the spec: the platform `parseInt` with no radix argument,
reduced to the fragment exercised here — optional leading whitespace,
optional sign, then a maximal run of decimal digits; no digits is `NaN`
(`none`).  Hexadecimal `0x` prefixes are not modelled. -/
def jsParseInt (s : String) : Option ℤ :=
  let l := s.data.dropWhile (fun c =>
    c = ' ' ∨ c = '\t' ∨ c = '\n' ∨ c = '\r' ∨ c.toNat = 11 ∨ c.toNat = 12)
  match l with
  | [] => none
  | c :: rest =>
    if c = '-' then
      let d := (takeDigits rest).1
      if d.isEmpty then none else some (-(digitsVal d : ℤ))
    else if c = '+' then
      let d := (takeDigits rest).1
      if d.isEmpty then none else some (digitsVal d)
    else
      let d := (takeDigits l).1
      if d.isEmpty then none else some (digitsVal d)

/-- Embedding of `parseInt(req.query.interval) || 200`. -/
def effInterval (intervalQ : Option String) : ℤ :=
  match intervalQ with
  | none => 200
  | some s =>
    match jsParseInt s with
    | none => 200
    | some v => if v = 0 then 200 else v

/-- Embedding of the inter-iteration sleep: the number of 50 ms waits
performed, starting with `k` slices already elapsed, observing the stop
flag before each wait.  `fuel` bounds the observation as the loop runs in
real time. -/
def sleepIters (stopped : ℕ → Bool) (interval : ℤ) : ℕ → ℕ → ℕ
  | _, 0 => 0
  | k, fuel + 1 =>
    if stopped k then 0
    else if (50 * (k : ℤ)) < interval then 1 + sleepIters stopped interval (k + 1) fuel
    else 0

/-! ## Properties -/

/-- C1: the claim states that every frame written by the poll loop ends
with a blank line (two consecutive newline characters).  The source appends
the template text backslash-backslash-n twice, which a JS template literal
renders as the literal four characters backslash, `n`, backslash, `n` — so
no frame ends with even one newline character.  Shown on the comment frame
of an upstream 500 status, on a data frame, and on a poll-error frame; the
code is the slip (its own header documents a Server-Sent Events stream,
which requires real blank-line termination). -/
theorem c1_poll_frames_end_without_blank_line :
    iterFrame (FetchRes.resp ⟨false, 500, "", Except.ok Json.null, ""⟩) =
      ": remote status 500" ++ frameTail ∧
    frameTail = String.mk ['\\', 'n', '\\', 'n'] ∧
    endsWithBlankLine (commentStatusFrame 500) = false ∧
    endsWithBlankLine (dataFrame "[1,2,3]") = false ∧
    endsWithBlankLine (pollErrorFrame "boom") = false := by
  decide

/-- C6: no header whose lowercased name is in the hop-by-hop set survives
the forwarding filter of the relay endpoint, for any upstream header set. -/
theorem c6_hop_by_hop_never_forwarded (hs : List (String × String))
    (kv : String × String) (h : kv ∈ forwardHeaders hs) :
    ¬ kv.1.toLower ∈ hopByHop := by
  intro hmem
  have h2 := (List.mem_filter.mp h).2
  rw [Bool.not_eq_eq_eq_not, Bool.not_true] at h2
  exact absurd (List.elem_iff.mpr hmem) (by simpa [List.contains] using h2)

/-- Witness for C6 at a concrete header set containing both a hop-by-hop
header and an ordinary one. -/
theorem c6_witness : ¬ ("X-Custom", "1").1.toLower ∈ hopByHop :=
  c6_hop_by_hop_never_forwarded [("Connection", "close"), ("X-Custom", "1")]
    ("X-Custom", "1") (by with_unfolding_all decide)

/-- C9: over every read/flag trace, the pump closes the client sink exactly
once (the `finally` block runs on every exit path, inside try/catch so no
error propagates), writes exactly the chunks read while the sink had not
ended — it checks the ended flag before each write and stops at the first
ended observation, so no write ever happens on a closed sink — and the
upstream reader is cancelled once per delivered `close` event, hence at
most once per connection. -/
theorem c9_pump_cancellation (trace : List (ReadRes × Bool)) (closeEvents : ℕ)
    (h : closeEvents ≤ 1) :
    readerCancelCalls closeEvents ≤ 1 ∧
    (pumpRun trace).2 = 1 ∧
    (pumpRun trace).1 = (trace.takeWhile pumpWritableStep).filterMap chunkData := by
  refine ⟨h, ?_, ?_⟩
  · induction trace with
    | nil => rfl
    | cons x rest ih =>
      obtain ⟨r, e⟩ := x
      cases r with
      | chunk b => by_cases he : e <;> simp [pumpRun, he, ih]
      | done => rfl
      | readErr m => rfl
  · induction trace with
    | nil => rfl
    | cons x rest ih =>
      obtain ⟨r, e⟩ := x
      cases r with
      | chunk b =>
        by_cases he : e <;>
          simp [pumpRun, pumpWritableStep, chunkData, he, ih]
      | done => simp [pumpRun, pumpWritableStep]
      | readErr m => simp [pumpRun, pumpWritableStep]

/-- Witness for C9 at a concrete trace and one delivered close event. -/
theorem c9_witness :
    readerCancelCalls 1 ≤ 1 ∧
    (pumpRun [(ReadRes.chunk "a", false), (ReadRes.done, false)]).2 = 1 ∧
    (pumpRun [(ReadRes.chunk "a", false), (ReadRes.done, false)]).1 =
      ([(ReadRes.chunk "a", false), (ReadRes.done, false)].takeWhile
        pumpWritableStep).filterMap chunkData :=
  c9_pump_cancellation [(ReadRes.chunk "a", false), (ReadRes.done, false)] 1
    (by decide)

/-- C10: an absent `interval` parameter, one that does not parse as an
integer, and one that parses to zero all fall back to the 200 ms default
(`parseInt(...) || 200` — `NaN` and `0` are falsy); a negative parsed
interval makes the sleep loop's time bound fail immediately, so no 50 ms
wait is performed between iterations. -/
theorem c10_interval_default_and_negative :
    effInterval none = 200 ∧
    (∀ s, jsParseInt s = none → effInterval (some s) = 200) ∧
    (∀ s, jsParseInt s = some 0 → effInterval (some s) = 200) ∧
    (∀ s v, jsParseInt s = some v → v < 0 →
      ∀ stopped k fuel, sleepIters stopped (effInterval (some s)) k fuel = 0) := by
  refine ⟨rfl, ?_, ?_, ?_⟩
  · intro s h; simp [effInterval, h]
  · intro s h; simp [effInterval, h]
  · intro s v h hv stopped k fuel
    have he : effInterval (some s) = v := by
      simp [effInterval, h]
      omega
    cases fuel with
    | zero => rfl
    | succ m =>
      have hlt : ¬ ((50 * (k : ℤ)) < effInterval (some s)) := by
        rw [he]
        have : (0 : ℤ) ≤ 50 * (k : ℤ) := by positivity
        omega
      by_cases hs : stopped k <;> simp [sleepIters, hs, hlt]

/-- C2 as stated is false on the relay endpoint: a present but unparsable
url is never answered 400 there, and with an empty allowlist the handler
invokes `fetch` on it (the throw lands in the 502 catch), so the fetch
call count is 1, not 0. -/
theorem c2_counterexample :
    parseURLModel "notaurl" = none ∧
    proxyPrefetch parseURLModel [] (some "notaurl") =
      (PreOutcome.badGateway, 1) := by
  decide

/-- C2 amended: on the poll `/sse` an invalid url is rejected 400 with zero
fetch calls; on `/proxy` an invalid url yields 403 with zero fetch calls
when the allowlist is non-empty (the host check fails on the parse error),
but with an empty allowlist `fetch` is invoked on it (one call, which
throws) and the response is 502. -/
theorem c2_amended_invalid_url (parse : ParseURL) (hosts : List String)
    (t : String) (hne : t ≠ "") (hbad : parse t = none) :
    pollSsePrefetch parse (some t) = (PreOutcome.badRequestInvalid, 0) ∧
    (hosts ≠ [] → proxyPrefetch parse hosts (some t) = (PreOutcome.forbidden, 0)) ∧
    (hosts = [] → proxyPrefetch parse hosts (some t) = (PreOutcome.badGateway, 1)) := by
  refine ⟨by simp [pollSsePrefetch, hne, hbad], ?_, ?_⟩
  · intro hh
    have hden : isHostAllowed parse hosts t = false := by
      simp [isHostAllowed, hbad, List.isEmpty_iff, hh]
    simp [proxyPrefetch, hne, hden]
  · intro hh
    subst hh
    simp [proxyPrefetch, hne, isHostAllowed, hbad]

/-- Witness for the amended C2 at a concrete invalid url, in both allowlist
configurations. -/
theorem c2_amended_witness :
    proxyPrefetch parseURLModel ["h.example"] (some "notaurl") =
      (PreOutcome.forbidden, 0) ∧
    proxyPrefetch parseURLModel [] (some "notaurl") =
      (PreOutcome.badGateway, 1) :=
  ⟨(c2_amended_invalid_url parseURLModel ["h.example"] "notaurl" (by decide)
      (by decide)).2.1 (by decide),
   (c2_amended_invalid_url parseURLModel [] "notaurl" (by decide)
      (by decide)).2.2 rfl⟩

/-- C3 as stated is false: the poll-mode `/sse` handler consults no host
allowlist, so a target whose hostname is outside a non-empty allowlist is
still answered with the 200 event stream, never 403. -/
theorem c3_counterexample :
    parseURLModel "http://evil.example/data" = some ⟨"evil.example"⟩ ∧
    ¬ "evil.example" ∈ ["good.example"] ∧
    pollSsePrefetch parseURLModel (some "http://evil.example/data") =
      (PreOutcome.streaming, 0) ∧
    PreOutcome.streaming ≠ PreOutcome.forbidden := by
  decide

/-- C3 amended: the poll-mode `/sse` validates url presence and syntax
(both 400) before writing the stream headers and makes no fetch while
validating, but it runs no host-allow check: it can never respond 403, and
every present, syntactically valid target starts the 200 event stream
regardless of any configured allowlist. -/
theorem c3_amended_no_host_check (parse : ParseURL) (q : Option String) :
    (pollSsePrefetch parse q).1 ≠ PreOutcome.forbidden ∧
    (pollSsePrefetch parse q).2 = 0 ∧
    (∀ t u, q = some t → t ≠ "" → parse t = some u →
      pollSsePrefetch parse q = (PreOutcome.streaming, 0)) := by
  refine ⟨?_, ?_, ?_⟩
  · cases q with
    | none => simp [pollSsePrefetch]
    | some t =>
      by_cases ht : t = ""
      · simp [pollSsePrefetch, ht]
      · cases hp : parse t <;> simp [pollSsePrefetch, ht, hp]
  · cases q with
    | none => rfl
    | some t =>
      by_cases ht : t = ""
      · simp [pollSsePrefetch, ht]
      · cases hp : parse t <;> simp [pollSsePrefetch, ht, hp]
  · intro t u hq ht hp
    subst hq
    simp [pollSsePrefetch, ht, hp]

/-- Witness for the amended C3: a valid target streams. -/
theorem c3_amended_witness :
    pollSsePrefetch parseURLModel (some "http://x.example/") =
      (PreOutcome.streaming, 0) :=
  (c3_amended_no_host_check parseURLModel
      (some "http://x.example/")).2.2 "http://x.example/" ⟨"x.example"⟩ rfl
    (by decide) (by decide)

/-- C5: the host policy allows exactly when the configured set is empty or
the URL parses to a hostname in the set; an unparsable URL with a
non-empty set is denied; and a denied URL is never fetched by the
endpoints that consult the policy — both reject 403 with zero fetch calls
(a missing/empty url is likewise rejected before any fetch). -/
theorem c5_host_policy (parse : ParseURL) (hosts : List String) (t : String) :
    (isHostAllowed parse hosts t = true ↔
      hosts = [] ∨ ∃ u, parse t = some u ∧ u.hostname ∈ hosts) ∧
    (hosts ≠ [] → parse t = none → isHostAllowed parse hosts t = false) ∧
    (isHostAllowed parse hosts t = false →
      (proxyPrefetch parse hosts (some t)).2 = 0 ∧
      (relaySsePrefetch parse hosts (some t)).2 = 0 ∧
      (t ≠ "" →
        proxyPrefetch parse hosts (some t) = (PreOutcome.forbidden, 0) ∧
        relaySsePrefetch parse hosts (some t) = (PreOutcome.forbidden, 0))) := by
  refine ⟨?_, ?_, ?_⟩
  · by_cases hh : hosts = []
    · simp [isHostAllowed, hh]
    · cases hp : parse t with
      | none => simp [isHostAllowed, List.isEmpty_iff, hh, hp]
      | some u =>
        simp [isHostAllowed, List.isEmpty_iff, hh, hp, List.contains,
          List.elem_iff]
  · intro hh hp
    simp [isHostAllowed, List.isEmpty_iff, hh, hp]
  · intro hden
    by_cases ht : t = ""
    · simp [proxyPrefetch, relaySsePrefetch, ht]
    · simp [proxyPrefetch, relaySsePrefetch, ht, hden]

/-- Witness for C5: a hostname outside the non-empty allowlist is rejected
403 by both relay endpoints with zero fetch calls. -/
theorem c5_witness :
    proxyPrefetch parseURLModel ["a.example"] (some "http://b.example/") =
      (PreOutcome.forbidden, 0) ∧
    relaySsePrefetch parseURLModel ["a.example"] (some "http://b.example/") =
      (PreOutcome.forbidden, 0) :=
  ((c5_host_policy parseURLModel ["a.example"] "http://b.example/").2.2
    (by decide)).2.2 (by decide)

/-- While the stop flag stays clear, the poll loop emits exactly one frame
per iteration, whatever each iteration's fetch result is: no result —
failures included — exits the loop. -/
theorem pollWritesAux_no_stop (f : ℕ → FetchRes) :
    ∀ fuel i, pollWritesAux f (fun _ => false) i fuel =
      (List.range' i fuel).map (fun n => iterFrame (f n)) := by
  intro fuel
  induction fuel with
  | zero => intro i; rfl
  | succ m ih => intro i; simp [pollWritesAux, List.range'_succ, ih]

/-- Upstream schedule that alternates between a JSON array response (even
iterations) and a thrown fetch (odd iterations). -/
def altFetch (arrs : ℕ → List Json) (msgs : ℕ → String) (n : ℕ) : FetchRes :=
  if n % 2 = 0 then
    FetchRes.resp ⟨true, 200, "application/json", Except.ok (Json.arr (arrs n)), ""⟩
  else FetchRes.fetchErr (msgs n)

/-- C7: with an upstream alternating between a JSON array response and a
network failure, and no client disconnect, every iteration up to any
horizon writes a frame — data frames with the array's JSON on even
iterations, poll-error comment frames on odd ones — so a failed iteration
never terminates the loop. -/
theorem c7_poll_loop_survives_failures (arrs : ℕ → List Json)
    (msgs : ℕ → String) (fuel : ℕ) :
    pollWritesAux (altFetch arrs msgs) (fun _ => false) 0 fuel =
      (List.range fuel).map (fun n =>
        if n % 2 = 0 then dataFrame (Json.stringify (Json.arr (arrs n)))
        else pollErrorFrame (msgs n)) := by
  rw [pollWritesAux_no_stop, List.range_eq_range']
  have hct : jsIncludes "application/json" "application/json" = true := by decide
  apply List.map_congr_left
  intro n _
  by_cases h : n % 2 = 0
  · simp [altFetch, h, iterFrame, hct, Json.isArray]
  · simp [altFetch, h, iterFrame]

/-- Decoding a base64 alphabet character recovers its 6-bit group. -/
theorem b64Val_b64Char : ∀ n, n < 64 → b64Val (b64Char n) = some n := by
  decide

/-- No base64 alphabet character is the padding character. -/
theorem b64Char_ne_pad : ∀ n, n < 64 → ¬ b64Char n = '=' := by
  decide

/-- Standard base64 decoding inverts the encoder on every byte sequence. -/
theorem b64EncodeBytes_roundtrip :
    ∀ bs : List ℕ, (∀ b ∈ bs, b < 256) →
      b64DecodeChars (b64EncodeBytes bs) = some bs := by
  intro bs
  induction bs using b64EncodeBytes.induct with
  | case1 => intro _; rfl
  | case2 a =>
    intro h
    have ha : a < 256 := h a (by simp)
    have h1 : b64Val (b64Char (a / 4)) = some (a / 4) :=
      b64Val_b64Char _ (by omega)
    have h2 : b64Val (b64Char (a % 4 * 16)) = some (a % 4 * 16) :=
      b64Val_b64Char _ (by omega)
    simp [b64EncodeBytes, b64DecodeChars, h1, h2]
    omega
  | case3 a b =>
    intro h
    have ha : a < 256 := h a (by simp)
    have hb : b < 256 := h b (by simp)
    have h1 : b64Val (b64Char (a / 4)) = some (a / 4) :=
      b64Val_b64Char _ (by omega)
    have h2 : b64Val (b64Char (a % 4 * 16 + b / 16)) =
        some (a % 4 * 16 + b / 16) := b64Val_b64Char _ (by omega)
    have h3 : b64Val (b64Char (b % 16 * 4)) = some (b % 16 * 4) :=
      b64Val_b64Char _ (by omega)
    have hy : ¬ b64Char (b % 16 * 4) = '=' := b64Char_ne_pad _ (by omega)
    simp [b64EncodeBytes, b64DecodeChars, h1, h2, h3, hy]
    omega
  | case4 a b c rest ih =>
    intro h
    have ha : a < 256 := h a (by simp)
    have hb : b < 256 := h b (by simp)
    have hc : c < 256 := h c (by simp)
    have h1 : b64Val (b64Char (a / 4)) = some (a / 4) :=
      b64Val_b64Char _ (by omega)
    have h2 : b64Val (b64Char (a % 4 * 16 + b / 16)) =
        some (a % 4 * 16 + b / 16) := b64Val_b64Char _ (by omega)
    have h3 : b64Val (b64Char (b % 16 * 4 + c / 64)) =
        some (b % 16 * 4 + c / 64) := b64Val_b64Char _ (by omega)
    have h4 : b64Val (b64Char (c % 64)) = some (c % 64) :=
      b64Val_b64Char _ (by omega)
    have hy : ¬ b64Char (b % 16 * 4 + c / 64) = '=' :=
      b64Char_ne_pad _ (by omega)
    have hz : ¬ b64Char (c % 64) = '=' := b64Char_ne_pad _ (by omega)
    have htail : b64DecodeChars (b64EncodeBytes rest) = some rest :=
      ih (fun x hx => h x (by simp [hx]))
    simp [b64EncodeBytes, b64DecodeChars, h1, h2, h3, h4, hy, hz, htail]
    refine ⟨by omega, by omega, by omega⟩

/-- Every Unicode scalar value is below `0x110000`. -/
theorem char_toNat_lt (c : Char) : c.toNat < 1114112 := by
  have h := c.valid
  rcases h with h | ⟨_, h2⟩
  · exact Nat.lt_trans h (by norm_num)
  · exact h2

/-- Every byte of the modelled UTF-8 encoding of a scalar value fits in an
octet. -/
theorem utf8Bytes_lt (c : ℕ) (hc : c < 1114112) :
    ∀ b ∈ utf8Bytes c, b < 256 := by
  intro b hb
  unfold utf8Bytes at hb
  split at hb
  · simp at hb; omega
  · split at hb
    · simp at hb; rcases hb with hb | hb <;> omega
    · split at hb
      · simp at hb; rcases hb with hb | hb | hb <;> omega
      · simp at hb; rcases hb with hb | hb | hb | hb <;> omega

/-- Every byte of the UTF-8 encoding of a string fits in an octet. -/
theorem strBytes_lt (s : String) : ∀ b ∈ strBytes s, b < 256 := by
  intro b hb
  unfold strBytes at hb
  obtain ⟨l, hl, hbl⟩ := List.mem_flatten.mp hb
  obtain ⟨c, _, rfl⟩ := List.mem_map.mp hl
  exact utf8Bytes_lt c.toNat (char_toNat_lt c) b hbl

/-- C8: a successful poll iteration with a non-JSON content type whose body
text yields no samples emits the base64 data frame, and standard base64
decoding of the frame's field recovers exactly the original body's byte
sequence (round-trip identity). -/
theorem c8_b64_roundtrip (r : RespModel) (hok : r.ok = true)
    (hct : jsIncludes r.ct "application/json" = false)
    (hnum : parseTextToNumbers r.textResult = []) :
    iterFrame (FetchRes.resp r) =
      b64DataFrame (String.mk (b64EncodeBytes (strBytes r.textResult))) ∧
    b64DecodeChars (b64EncodeBytes (strBytes r.textResult)) =
      some (strBytes r.textResult) := by
  constructor
  · simp [iterFrame, hok, hct, hnum]
  · exact b64EncodeBytes_roundtrip _ (strBytes_lt _)

/-- Witness for C8 at a concrete plain-text body with no numeric
substrings. -/
theorem c8_witness :
    iterFrame (FetchRes.resp ⟨true, 200, "text/plain", Except.ok Json.null, "hi!"⟩) =
      b64DataFrame (String.mk (b64EncodeBytes (strBytes "hi!"))) ∧
    b64DecodeChars (b64EncodeBytes (strBytes "hi!")) = some (strBytes "hi!") :=
  c8_b64_roundtrip ⟨true, 200, "text/plain", Except.ok Json.null, "hi!"⟩ rfl
    (by decide) (by with_unfolding_all decide)

/-- A mantissa match consumes at least one character. -/
theorem matchMantissa_pos (l : List Char) (v : ℚ) (n : ℕ) (r : List Char)
    (h : matchMantissa l = some (v, n, r)) : 0 < n := by
  simp only [matchMantissa] at h
  split at h <;> [skip; skip] <;> split at h <;> try split at h
  all_goals simp_all [List.isEmpty_iff, List.length_pos]
  all_goals obtain ⟨-, hn, -⟩ := h
  all_goals first
    | omega
    | (have hpos : 0 < (takeDigits l).1.length := List.length_pos.mpr (by assumption)
       omega)

/-- A mantissa-plus-exponent match consumes at least one character. -/
theorem matchAfterSign_pos (l : List Char) (v : ℚ) (n : ℕ) (r : List Char)
    (h : matchAfterSign l = some (v, n, r)) : 0 < n := by
  unfold matchAfterSign at h
  obtain ⟨⟨tv, tn, tr⟩, ht, hf⟩ := Option.map_eq_some'.mp h
  have hpos := matchMantissa_pos l tv tn tr ht
  simp only at hf
  rw [Prod.mk.injEq, Prod.mk.injEq] at hf
  obtain ⟨-, hn, -⟩ := hf
  omega

/-- A full numeric-literal match consumes at least one character. -/
theorem matchNumAt_pos (l : List Char) (v : ℚ) (n : ℕ) (r : List Char)
    (h : matchNumAt l = some (v, n, r)) : 0 < n := by
  cases l with
  | nil =>
    simp only [matchNumAt] at h
    exact matchAfterSign_pos _ _ _ _ h
  | cons c rest =>
    simp only [matchNumAt] at h
    split at h
    · obtain ⟨⟨tv, tn, tr⟩, ht, hf⟩ := Option.map_eq_some'.mp h
      simp only at hf
      rw [Prod.mk.injEq, Prod.mk.injEq] at hf
      obtain ⟨-, hn, -⟩ := hf
      omega
    · split at h
      · obtain ⟨⟨tv, tn, tr⟩, ht, hf⟩ := Option.map_eq_some'.mp h
        simp only at hf
        rw [Prod.mk.injEq, Prod.mk.injEq] at hf
        obtain ⟨-, hn, -⟩ := hf
        omega
      · exact matchAfterSign_pos _ _ _ _ h

/-- Every sample the scanner reports from position `i` onwards lies at
position `i` or later. -/
theorem scanAux_lb :
    ∀ fuel i l, ∀ p ∈ scanAux fuel i l, i ≤ p.1 := by
  intro fuel
  induction fuel with
  | zero => intro i l p hp; simp [scanAux] at hp
  | succ m ih =>
    intro i l p hp
    cases l with
    | nil => simp [scanAux] at hp
    | cons c rest =>
      rw [scanAux] at hp
      cases hm : matchNumAt (c :: rest) with
      | none =>
        rw [hm] at hp
        have := ih (i + 1) rest p hp
        omega
      | some t =>
        obtain ⟨v, n, r⟩ := t
        rw [hm] at hp
        rcases List.mem_cons.mp hp with hp | hp
        · subst hp; simp
        · have := ih (i + n) r p hp
          omega

/-- C4: the Sample Extractor reports samples at strictly increasing text
positions — left-to-right order of occurrence, for every input — and on
the input of the claim it extracts exactly the two values, parsing sign,
decimal point and exponent. -/
theorem c4_sample_extractor :
    (∀ fuel i l, (scanAux fuel i l).Chain' (fun a b => a.1 < b.1)) ∧
    parseTextToNumbers "-3.5e2 foo 10" = [-350, 10] := by
  constructor
  · intro fuel
    induction fuel with
    | zero => intro i l; simp [scanAux]
    | succ m ih =>
      intro i l
      cases l with
      | nil => simp [scanAux]
      | cons c rest =>
        rw [scanAux]
        cases hm : matchNumAt (c :: rest) with
        | none => exact ih (i + 1) rest
        | some t =>
          obtain ⟨v, n, r⟩ := t
          have hpos := matchNumAt_pos _ _ _ _ hm
          refine List.chain'_cons'.mpr ⟨?_, ih (i + n) r⟩
          intro b hb
          have hmem : b ∈ scanAux m (i + n) r := List.mem_of_mem_head? hb
          have := scanAux_lb m (i + n) r b hmem
          simp only
          omega
  · with_unfolding_all decide

/-- Witness for C10 at concrete parameter values. -/
theorem c10_witness :
    effInterval (some "abc") = 200 ∧ effInterval (some "0") = 200 ∧
    sleepIters (fun _ => false) (effInterval (some "-5")) 0 7 = 0 :=
  ⟨c10_interval_default_and_negative.2.1 "abc" (by decide),
   c10_interval_default_and_negative.2.2.1 "0" (by decide),
   c10_interval_default_and_negative.2.2.2 "-5" (-5) (by decide) (by decide)
     (fun _ => false) 0 7⟩

end Relay
